import Mathlib

/-
Verification of the construction-site-intel synthesis engine
(`src/unnamed/part_001`, mirrored in `src/lib/signals.ts`).

Modelling conventions for the shallow embedding:
  * JavaScript numbers are modelled as exact arithmetic: configuration
    values and score arithmetic as rationals (every JSON literal and every
    float64 value is rational), Monte-Carlo sample values as reals (the
    sampler applies a square root).
  * 32-bit operations (`Math.imul`, `>>> 0`, `^`) are modelled on `Nat`
    with explicit `% 4294967296`; XOR via `Nat.xor`.  This agrees with the
    JS semantics because every quantity is reduced mod 2^32 at each step.
  * `charCodeAt` is modelled as `Char.toNat` over `String.data`; the two
    agree on all strings of basic-multilingual-plane characters, which is
    the domain used here.
  * A JavaScript runtime `TypeError` (property access on `undefined`) is
    modelled by an `Option`-valued result: `none` means the call throws.
  * `Array.prototype.sort` (stable since ES2019) with comparator
    `(a, b) => key b - key a` is modelled by `List.mergeSort` (stable)
    with the boolean relation `key b ≤ key a`.
-/

namespace SiteIntel

/-- Severity of a signal, from `Signal["severity"]` in `src/lib/types.ts`
(`"low" | "medium" | "high" | "unknown"`). -/
inductive Severity where
  | high
  | medium
  | low
  | unknown
deriving DecidableEq

/-- Embeds `rankSeverity` from part_001: high→3, medium→2, low→1, other→0. -/
def rankSeverity (severity : Severity) : ℕ :=
  match severity with
  | .high => 3
  | .medium => 2
  | .low => 1
  | .unknown => 0

/-- Embeds `asSeverity` from part_001: returns the severity when it is one
of high/medium/low, otherwise null. -/
def asSeverity (severity : Severity) : Option Severity :=
  match severity with
  | .high => some .high
  | .medium => some .medium
  | .low => some .low
  | .unknown => none

/-- Embeds the `Signal` record from `src/lib/types.ts`. -/
structure Signal where
  id : String
  label : String
  value : String
  severity : Severity
  explanation : String
deriving DecidableEq

/-- Embeds `hashSeed` from part_001: 32-bit FNV-1a over the string's code
units (start 2166136261, per character XOR then multiply by 16777619,
reduced mod 2^32). -/
def hashSeed (input : String) : ℕ :=
  input.data.foldl (fun hash c => ((hash ^^^ c.toNat) * 16777619) % 4294967296) 2166136261

/-- Embeds one step of the linear congruential generator inside `createRng`
from part_001: `state = (Math.imul(1664525, state) + 1013904223) >>> 0`. -/
def rngStep (state : ℕ) : ℕ :=
  (1664525 * state + 1013904223) % 4294967296

/-- Embeds the initialisation `let state = seed || 1` in `createRng`:
a zero seed is replaced by 1. -/
def initState (seed : ℕ) : ℕ :=
  if seed = 0 then 1 else seed

/-- State of the generator created by `createRng(hashSeed(key))` after `k`
draws have been made. -/
def rngStateAfter (key : String) : ℕ → ℕ
  | 0 => initState (hashSeed key)
  | k + 1 => rngStep (rngStateAfter key k)

/-- Value in [0,1) emitted by the `k`-th (0-based) call of the generator
created by `createRng(hashSeed(key))`: the advanced state divided by 2^32. -/
noncomputable def uniformAt (key : String) (k : ℕ) : ℝ :=
  (rngStateAfter key (k + 1) : ℝ) / 4294967296

/-- First uniform value drawn from the generator for a given seed key. -/
noncomputable def firstUniform (key : String) : ℝ :=
  uniformAt key 0

/-- Embeds `scoreConfidence` from part_001 / `src/lib/signals.ts`.
`Math.round` on a non-negative argument agrees with Mathlib's `round`
(nearest integer, half away from zero upward); `0.4` is the exact rational
2/5 (the float-vs-exact difference can never cross a rounding boundary
here because the exact value of the argument never ends in .5). -/
def scoreConfidence (signals : List Signal) (warnings : List String) : ℤ × ℤ :=
  let totalSignals : ℕ := if signals.length = 0 then 1 else signals.length
  let knownSignals : ℕ :=
    (signals.filter (fun s => s.value != "Not available" && s.value != "Unknown")).length
  let completeness : ℤ := round (((knownSignals : ℚ) / (totalSignals : ℚ)) * 100)
  let warningPenalty : ℚ := min ((warnings.length : ℚ) * 6) 30
  let availabilityPenalty : ℚ := (max 0 (100 - (completeness : ℚ))) * 0.4
  let confidenceScore : ℤ := max 35 (round ((100 : ℚ) - warningPenalty - availabilityPenalty))
  (confidenceScore, completeness)

/-- Numeric range `{min, max}` used by CostDriver, from `src/lib/types-v2.ts`. -/
structure DeltaRange where
  min : ℚ
  max : ℚ
deriving DecidableEq

/-- Embeds the per-severity delta `{ pct: number[]; days: number[] }` of a
rule's `deltas` record (part_001, `RuleConfig`). -/
structure DeltaSpec where
  pct : List ℚ
  days : List ℚ
deriving DecidableEq

/-- Embeds `RuleConfig` from part_001.  The `deltas` record of the raw JSON
configuration may be missing a severity key (the `rules as Config` cast is
not checked at runtime), so it is modelled as an `Option`-valued map. -/
structure RuleConfig where
  signalId : String
  costCategory : String
  impactType : String
  deltas : Severity → Option DeltaSpec
  rationale : String

/-- Embeds `CostDriver` from `src/lib/types-v2.ts`. -/
structure CostDriver where
  id : String
  signalId : String
  label : String
  severity : Severity
  costCategory : String
  impactType : String
  estimatedCostDeltaPct : DeltaRange
  estimatedScheduleDeltaDays : DeltaRange
  rationale : String
deriving DecidableEq

/-- Priority of a PM action (`"high" | "medium" | "low"`). -/
inductive Priority where
  | high
  | medium
  | low
deriving DecidableEq

/-- Embeds `ActionConfig` from part_001 (an action-library template). -/
structure ActionConfig where
  title : String
  owner : String
  duePhase : String
  leadTimeDays : ℚ
deriving DecidableEq

/-- Embeds `PMAction` from `src/lib/types-v2.ts`. -/
structure PMAction where
  id : String
  relatedSignalId : String
  priority : Priority
  title : String
  owner : String
  duePhase : String
  leadTimeDays : ℚ
deriving DecidableEq

/-- Embeds a contingency band `ContingencyRange & { minScore: number }`. -/
structure ContingencyBand where
  minScore : ℚ
  minPct : ℚ
  maxPct : ℚ
  basis : String
deriving DecidableEq

/-- Embeds `ContingencyRange` from `src/lib/types-v2.ts`. -/
structure ContingencyRange where
  minPct : ℚ
  maxPct : ℚ
  basis : String
deriving DecidableEq

/-- Embeds the sections of the loaded `Config` used by the resolvers under
verification (`costRules`, `actionLibrary`, `contingencyBands`).  The JSON
`actionLibrary` object is modelled as a lookup function. -/
structure Config where
  costRules : List RuleConfig
  actionLibrary : String → Option ActionConfig
  contingencyBands : List ContingencyBand

/-- Embeds `pair` from part_001: first element (default 0), second element
(default the first). -/
def pair (values : List ℚ) : ℚ × ℚ :=
  let first := values.getD 0 0
  (first, values.getD 1 first)

/-- Embeds `new Map(signals.map(s => [s.id, s])).get(id)`: with duplicate
ids the later entry overwrites the earlier one. -/
def lookupSignal (signals : List Signal) (id : String) : Option Signal :=
  signals.foldl (fun acc s => if s.id = id then some s else acc) none

/-- Embeds the body of the `config.costRules.map` callback in
`buildCostDrivers`.  Outer `none` models the JavaScript `TypeError` thrown
by `rule.deltas[severity].pct` when the severity key is missing; inner
`none` models the callback returning `null` (signal absent or severity not
high/medium/low). -/
def resolveRule (signals : List Signal) (rule : RuleConfig) : Option (Option CostDriver) :=
  match lookupSignal signals rule.signalId with
  | none => some none
  | some signal =>
    match asSeverity signal.severity with
    | none => some none
    | some severity =>
      match rule.deltas severity with
      | none => none
      | some delta =>
        let costPair := pair delta.pct
        let daysPair := pair delta.days
        some (some
          { id := "driver-" ++ rule.signalId
            signalId := rule.signalId
            label := signal.label
            severity := severity
            costCategory := rule.costCategory
            impactType := rule.impactType
            estimatedCostDeltaPct := ⟨costPair.1, costPair.2⟩
            estimatedScheduleDeltaDays := ⟨daysPair.1, daysPair.2⟩
            rationale := rule.rationale })

/-- Runs `resolveRule` over the rule list in order; a thrown `TypeError`
(outer `none`) aborts the whole `buildCostDrivers` call. -/
def resolveRules (signals : List Signal) : List RuleConfig → Option (List (Option CostDriver))
  | [] => some []
  | rule :: rest =>
    match resolveRule signals rule with
    | none => none
    | some od => (resolveRules signals rest).map (od :: ·)

/-- Comparator of the final `.sort` in `buildCostDrivers`:
`(a, b) => rankSeverity(b.severity) - rankSeverity(a.severity)` sorts `a`
before `b` when `rank(b) ≤ rank(a)`. -/
def driverLE (a b : CostDriver) : Bool :=
  rankSeverity b.severity ≤ rankSeverity a.severity

/-- Cost-driver list before sorting: `config.costRules.map(...).filter(...)`
from `buildCostDrivers` in part_001. -/
def buildCostDriversRaw (signals : List Signal) (cfg : Config) : Option (List CostDriver) :=
  (resolveRules signals cfg.costRules).map (·.filterMap id)

/-- Embeds `buildCostDrivers` from part_001: resolve each rule, drop the
nulls, sort descending by severity rank with a stable sort. -/
def buildCostDrivers (signals : List Signal) (cfg : Config) : Option (List CostDriver) :=
  (buildCostDriversRaw signals cfg).map (·.mergeSort driverLE)

/-- Embeds `priorityOrder` from `buildPMActions`: `{high: 3, medium: 2, low: 1}`. -/
def priorityRank (p : Priority) : ℕ :=
  match p with
  | .high => 3
  | .medium => 2
  | .low => 1

/-- Comparator of the final `.sort` in `buildPMActions` (descending by
priority rank, stable). -/
def actionLE (a b : PMAction) : Bool :=
  priorityRank b.priority ≤ priorityRank a.priority

/-- Fallback action pushed by `buildPMActions` when no signal produced one. -/
def baselineAction : PMAction :=
  { id := "action-baseline"
    relatedSignalId := "baseline"
    priority := .low
    title := "Proceed with standard preconstruction validation"
    owner := "Project Manager"
    duePhase := "Bid"
    leadTimeDays := 3 }

/-- Embeds the loop body of `buildPMActions` from part_001 for one signal:
skip `unknown`/`low` severities, look up a template by signal id (missing
template → skip), priority `high` for `high` severity else `medium`. -/
def actionFromSignal (cfg : Config) (signal : Signal) : Option PMAction :=
  if signal.severity = .unknown ∨ signal.severity = .low then none
  else
    match cfg.actionLibrary signal.id with
    | none => none
    | some template => some
        { id := "action-" ++ signal.id
          relatedSignalId := signal.id
          priority := if signal.severity = .high then .high else .medium
          title := template.title
          owner := template.owner
          duePhase := template.duePhase
          leadTimeDays := template.leadTimeDays }

/-- Embeds `buildPMActions` from part_001: collect the per-signal actions
in signal order, substitute the baseline action when the list is empty,
then stable-sort descending by priority rank. -/
def buildPMActions (signals : List Signal) (cfg : Config) : List PMAction :=
  let fromSignals := signals.filterMap (actionFromSignal cfg)
  let actions := if fromSignals.isEmpty then [baselineAction] else fromSignals
  actions.mergeSort actionLE

/-- Embeds `buildContingency` from part_001.  `none` models the JavaScript
`TypeError` thrown when the band ladder is empty
(`sortedBands[sortedBands.length - 1]` is `undefined`). -/
def buildContingency (signals : List Signal) (cfg : Config) : Option ContingencyRange :=
  let score : ℕ := signals.foldl (fun acc s => acc + rankSeverity s.severity) 0
  let sortedBands := cfg.contingencyBands.mergeSort
    (fun a b => decide (b.minScore ≤ a.minScore))
  match sortedBands.find? (fun candidate => decide (candidate.minScore ≤ (score : ℚ))) with
  | some band => some ⟨band.minPct, band.maxPct, band.basis⟩
  | none =>
    match sortedBands.getLast? with
    | some band => some ⟨band.minPct, band.maxPct, band.basis⟩
    | none => none

/-- Embeds the non-degenerate branch of `triangularSample` from part_001 as
a function of the drawn uniform value `u`: with `split = (mode-min)/(max-min)`,
return `min + sqrt(u*(max-min)*(mode-min))` when `u < split`, else
`max - sqrt((1-u)*(max-min)*(max-mode))`. -/
noncomputable def triangularFromU (mn mx mode u : ℝ) : ℝ :=
  let split := (mode - mn) / (mx - mn)
  if u < split then mn + Real.sqrt (u * (mx - mn) * (mode - mn))
  else mx - Real.sqrt ((1 - u) * (mx - mn) * (mx - mode))

/-- Embeds `triangularSample` from part_001 with the generator state passed
explicitly: when `max <= min` return `min` without consuming a draw;
otherwise advance the state once and invert the triangular distribution at
the emitted uniform value. -/
noncomputable def triangularSample (mn mx mode : ℝ) (state : ℕ) : ℝ × ℕ :=
  if mx ≤ mn then (mn, state)
  else
    let state' := rngStep state
    (triangularFromU mn mx mode ((state' : ℝ) / 4294967296), state')

/-- Embeds `percentile` from part_001: nearest-rank indexing
`clamp(floor((p/100)*n), 0, n-1)` into the ascending-sorted list, 0 for an
empty list. -/
noncomputable def percentile (sorted : List ℝ) (p : ℝ) : ℝ :=
  if sorted.length = 0 then 0
  else sorted.getD (min (sorted.length - 1) (max 0 ⌊(p / 100) * (sorted.length : ℝ)⌋).toNat) 0

/-- Embeds `round2` from part_001: `Math.round(n * 100) / 100`. -/
noncomputable def round2 (n : ℝ) : ℝ :=
  ((round (n * 100) : ℤ) : ℝ) / 100

/-- Embeds `PercentileTriple` from `src/lib/types-v2.ts`. -/
structure PercentileTriple where
  p10 : ℝ
  p50 : ℝ
  p90 : ℝ

/-- Embeds `toTriple` from part_001: round each percentile to 2 decimals. -/
noncomputable def toTriple (p10 p50 p90 : ℝ) : PercentileTriple :=
  { p10 := round2 p10, p50 := round2 p50, p90 := round2 p90 }

/-- Embeds `ProbabilisticEstimate` from `src/lib/types-v2.ts`. -/
structure ProbabilisticEstimate where
  baselineCostUsd : Option ℚ
  impactPct : PercentileTriple
  scheduleDays : PercentileTriple
  impactCostUsd : Option PercentileTriple
  methodology : String
  sampleSize : ℕ

/-- Embeds one iteration of the outer sampling loop of
`buildProbabilisticEstimate`: fold over the drivers, drawing one cost-pct
sample and one schedule-day sample per driver (mode = midpoint of the
range), threading the generator state; returns the two trial totals and
the final state. -/
noncomputable def runTrial (drivers : List CostDriver) (state : ℕ) : ℝ × ℝ × ℕ :=
  drivers.foldl (fun acc driver =>
    let pctMin : ℝ := (driver.estimatedCostDeltaPct.min : ℝ)
    let pctMax : ℝ := (driver.estimatedCostDeltaPct.max : ℝ)
    let pctMode := (pctMin + pctMax) / 2
    let dayMin : ℝ := (driver.estimatedScheduleDeltaDays.min : ℝ)
    let dayMax : ℝ := (driver.estimatedScheduleDeltaDays.max : ℝ)
    let dayMode := (dayMin + dayMax) / 2
    let pctDraw := triangularSample pctMin pctMax pctMode acc.2.2
    let dayDraw := triangularSample dayMin dayMax dayMode pctDraw.2
    (acc.1 + pctDraw.1, acc.2.1 + dayDraw.1, dayDraw.2)) (0, 0, state)

/-- Runs the sampling loop of `buildProbabilisticEstimate` for the given
number of trials, accumulating the per-trial totals in chronological order. -/
noncomputable def runTrials (drivers : List CostDriver) : ℕ → ℕ → List ℝ × List ℝ × ℕ
  | 0, state => ([], [], state)
  | n + 1, state =>
    let t := runTrial drivers state
    let rest := runTrials drivers n t.2.2
    (t.1 :: rest.1, t.2.1 :: rest.2.1, rest.2.2)

/-- Boolean form of the ascending comparator `(a, b) => a - b` used to sort
the trial totals. -/
noncomputable def realLE (a b : ℝ) : Bool :=
  decide (a ≤ b)

/-- Embeds `buildProbabilisticEstimate` from part_001: seed the generator
from the seed key, run `sampleSize` trials (default 2000), sort each
dimension's totals ascending, extract the rounded P10/P50/P90 triples, and
when a positive baseline is supplied scale the cost-percent triple into
dollars. -/
noncomputable def buildProbabilisticEstimate (costDrivers : List CostDriver)
    (baselineCostUsd : Option ℚ) (seedKey : String) (sampleSize? : Option ℕ) :
    ProbabilisticEstimate :=
  let sampleSize := sampleSize?.getD 2000
  let trials := runTrials costDrivers sampleSize (initState (hashSeed seedKey))
  let pctSorted := trials.1.mergeSort realLE
  let daySorted := trials.2.1.mergeSort realLE
  let impactPct :=
    toTriple (percentile pctSorted 10) (percentile pctSorted 50) (percentile pctSorted 90)
  let scheduleDays :=
    toTriple (percentile daySorted 10) (percentile daySorted 50) (percentile daySorted 90)
  let impactCostUsd :=
    match baselineCostUsd with
    | some b =>
      if 0 < b then
        some { p10 := round2 ((impactPct.p10 / 100) * (b : ℝ))
               p50 := round2 ((impactPct.p50 / 100) * (b : ℝ))
               p90 := round2 ((impactPct.p90 / 100) * (b : ℝ)) }
      else none
    | none => none
  { baselineCostUsd := baselineCostUsd
    impactPct := impactPct
    scheduleDays := scheduleDays
    impactCostUsd := impactCostUsd
    methodology :=
      "Monte Carlo using triangular distributions derived from each cost-driver min/max range."
    sampleSize := sampleSize }

/-- Rounding to the nearest integer is monotone (used for `Math.round`). -/
theorem round_monotone {α : Type} [LinearOrderedField α] [FloorRing α]
    {x y : α} (h : x ≤ y) : round x ≤ round y := by
  rw [round_eq, round_eq]
  exact Int.floor_mono (by linarith)

/-- Signal used to instantiate hypotheses of the general theorems. -/
def floodSignal : Signal :=
  { id := "flood-zone", label := "Flood Zone", value := "AE",
    severity := .high, explanation := "FEMA flood zone designation." }

/-- Low-severity signal used to instantiate the stability theorem. -/
def slopeSignal : Signal :=
  { id := "site-slope", label := "Site Slope", value := "2.0 %",
    severity := .low, explanation := "Terrain slope estimate." }

/-- Medium-severity signal used to instantiate the fault theorem. -/
def windSignal : Signal :=
  { id := "wind-load-proxy", label := "Wind Load Proxy", value := "105 mph",
    severity := .medium, explanation := "Wind maxima proxy." }

/-- Delta specification used by the demonstration configurations. -/
def demoDelta : DeltaSpec := ⟨[5, 12], [10, 25]⟩

/-- Second delta specification used by the demonstration configurations. -/
def demoDeltaSmall : DeltaSpec := ⟨[1, 3], [2, 6]⟩

/-- Rule matching `flood-zone` with all three severities defined. -/
def floodRule : RuleConfig :=
  { signalId := "flood-zone", costCategory := "Site preparation", impactType := "capex",
    deltas := fun _ => some demoDelta, rationale := "Flood exposure drives earthwork." }

/-- Rule matching `site-slope` with all three severities defined. -/
def slopeRule : RuleConfig :=
  { signalId := "site-slope", costCategory := "Earthwork", impactType := "capex",
    deltas := fun _ => some demoDeltaSmall, rationale := "Slope drives grading." }

/-- Configuration with a single fully-specified rule. -/
def demoConfig : Config :=
  { costRules := [floodRule], actionLibrary := fun _ => none,
    contingencyBands := [⟨0, 3, 5, "baseline"⟩] }

/-- Configuration listing two rules of different severities. -/
def demoConfigTwoRules : Config :=
  { costRules := [floodRule, slopeRule], actionLibrary := fun _ => none,
    contingencyBands := [⟨0, 3, 5, "baseline"⟩] }

/-- Cost driver produced by `floodRule` for `floodSignal`. -/
def floodDriver : CostDriver :=
  { id := "driver-flood-zone", signalId := "flood-zone", label := "Flood Zone",
    severity := .high, costCategory := "Site preparation", impactType := "capex",
    estimatedCostDeltaPct := ⟨5, 12⟩, estimatedScheduleDeltaDays := ⟨10, 25⟩,
    rationale := "Flood exposure drives earthwork." }

/-- Cost driver produced by `slopeRule` for `slopeSignal`. -/
def slopeDriver : CostDriver :=
  { id := "driver-site-slope", signalId := "site-slope", label := "Site Slope",
    severity := .low, costCategory := "Earthwork", impactType := "capex",
    estimatedCostDeltaPct := ⟨1, 3⟩, estimatedScheduleDeltaDays := ⟨2, 6⟩,
    rationale := "Slope drives grading." }

/-- Delta map of a misconfigured rule: the `medium` severity key is absent. -/
def deltasMissingMedium : Severity → Option DeltaSpec :=
  fun sev =>
    match sev with
    | .medium => none
    | _ => some demoDelta

/-- Misconfigured rule whose `deltas` map is missing the `medium` key. -/
def ruleMissingMedium : RuleConfig :=
  { signalId := "wind-load-proxy", costCategory := "Structure", impactType := "capex",
    deltas := deltasMissingMedium, rationale := "Wind drives envelope detailing." }

/-- Configuration containing the misconfigured rule. -/
def configMissingMedium : Config :=
  { costRules := [ruleMissingMedium], actionLibrary := fun _ => none,
    contingencyBands := [⟨0, 3, 5, "baseline"⟩] }

/-- Configuration whose contingency band ladder is empty. -/
def noBandsConfig : Config :=
  { costRules := [], actionLibrary := fun _ => none, contingencyBands := [] }

/-- Specification of the `Map`-based signal lookup: a hit is a member of
the signal list and carries the requested id. -/
theorem lookupSignal_spec (signals : List Signal) (i : String) (s : Signal)
    (h : lookupSignal signals i = some s) : s ∈ signals ∧ s.id = i := by
  have aux : ∀ (l : List Signal) (acc : Option Signal),
      l.foldl (fun acc t => if t.id = i then some t else acc) acc = some s →
      acc = some s ∨ (s ∈ l ∧ s.id = i) := by
    intro l
    induction l with
    | nil => exact fun acc h => Or.inl h
    | cons x xs ih =>
      intro acc h
      rcases ih _ h with h' | h'
      · have h'' : (if x.id = i then some x else acc) = some s := h'
        by_cases hx : x.id = i
        · rw [if_pos hx] at h''
          refine Or.inr ⟨?_, ?_⟩
          · rw [← Option.some_inj.mp h'']
            exact List.mem_cons_self x xs
          · rw [← Option.some_inj.mp h'']
            exact hx
        · rw [if_neg hx] at h''
          exact Or.inl h''
      · exact Or.inr ⟨List.mem_cons_of_mem _ h'.1, h'.2⟩
  rcases aux signals none h with h' | h'
  · exact absurd h' (by simp)
  · exact h'

/-- Specification of `asSeverity`: a hit returns the input severity, which
is one of high/medium/low. -/
theorem asSeverity_spec (sev sev' : Severity) (h : asSeverity sev = some sev') :
    sev' = sev ∧ (sev = .high ∨ sev = .medium ∨ sev = .low) := by
  cases sev <;> simp_all [asSeverity]

/-- Specification of a successful `resolveRule`: the produced driver comes
from the looked-up signal, carries the rule's signal id, and its severity
is the signal's severity, one of high/medium/low. -/
theorem resolveRule_spec (signals : List Signal) (rule : RuleConfig) (d : CostDriver)
    (h : resolveRule signals rule = some (some d)) :
    d.signalId = rule.signalId ∧
    (d.severity = .high ∨ d.severity = .medium ∨ d.severity = .low) ∧
    ∃ s, s ∈ signals ∧ s.id = d.signalId ∧ s.severity = d.severity := by
  cases hl : lookupSignal signals rule.signalId with
  | none =>
    simp only [resolveRule, hl, Option.some_inj] at h
    exact Option.noConfusion h
  | some s =>
    cases hs : asSeverity s.severity with
    | none =>
      simp only [resolveRule, hl, hs, Option.some_inj] at h
      exact Option.noConfusion h
    | some sev =>
      cases hd : rule.deltas sev with
      | none =>
        simp only [resolveRule, hl, hs, hd] at h
        exact Option.noConfusion h
      | some delta =>
        simp only [resolveRule, hl, hs, hd, Option.some_inj] at h
        obtain ⟨hsev, hcase⟩ := asSeverity_spec s.severity sev hs
        obtain ⟨hmem, hid⟩ := lookupSignal_spec signals rule.signalId s hl
        have hdsev : d.severity = sev := by rw [← h]
        have hdsig : d.signalId = rule.signalId := by rw [← h]
        refine ⟨hdsig, ?_, s, hmem, ?_, ?_⟩
        · rw [hdsev, hsev]; exact hcase
        · rw [hdsig]; exact hid
        · rw [hdsev, hsev]

/-- Membership specification of `resolveRules`: every produced entry comes
from some rule of the list. -/
theorem resolveRules_mem (signals : List Signal) (rules : List RuleConfig)
    (ods : List (Option CostDriver)) (h : resolveRules signals rules = some ods)
    (od : Option CostDriver) (hmem : od ∈ ods) :
    ∃ rule ∈ rules, resolveRule signals rule = some od := by
  induction rules generalizing ods with
  | nil =>
    simp only [resolveRules, Option.some_inj] at h
    rw [← h] at hmem
    exact absurd hmem (List.not_mem_nil od)
  | cons rule rest ih =>
    cases hr : resolveRule signals rule with
    | none =>
      simp only [resolveRules, hr] at h
      exact Option.noConfusion h
    | some od' =>
      simp only [resolveRules, hr, Option.map_eq_some'] at h
      obtain ⟨ods', hrest, hcons⟩ := h
      rw [← hcons] at hmem
      rcases List.mem_cons.mp hmem with heq | hmem'
      · exact ⟨rule, List.mem_cons_self _ _, heq ▸ hr⟩
      · obtain ⟨r, hrmem, hres⟩ := ih ods' hrest hmem'
        exact ⟨r, List.mem_cons_of_mem _ hrmem, hres⟩

/-- Successful resolution lists driver signal ids in rule-table order: the
produced id sequence is a sublist of the rule table's id sequence. -/
theorem resolveRules_ids (signals : List Signal) (rules : List RuleConfig)
    (ods : List (Option CostDriver)) (h : resolveRules signals rules = some ods) :
    ((ods.filterMap id).map (·.signalId)).Sublist (rules.map (·.signalId)) := by
  induction rules generalizing ods with
  | nil =>
    simp only [resolveRules, Option.some_inj] at h
    rw [← h]
    simp
  | cons rule rest ih =>
    cases hr : resolveRule signals rule with
    | none =>
      simp only [resolveRules, hr] at h
      exact Option.noConfusion h
    | some od =>
      simp only [resolveRules, hr, Option.map_eq_some'] at h
      obtain ⟨ods', hrest, hcons⟩ := h
      rw [← hcons]
      cases od with
      | none =>
        simp only [List.filterMap_cons, id]
        exact (ih ods' hrest).cons _
      | some d =>
        have hid : d.signalId = rule.signalId := (resolveRule_spec signals rule d hr).1
        simp only [List.filterMap_cons, id, List.map_cons, hid]
        exact (ih ods' hrest).cons₂ _

/-- Relates the sorted and the raw driver lists. -/
theorem buildCostDrivers_eq (signals : List Signal) (cfg : Config)
    (pre out : List CostDriver)
    (hpre : buildCostDriversRaw signals cfg = some pre)
    (hout : buildCostDrivers signals cfg = some out) :
    out = pre.mergeSort driverLE := by
  unfold buildCostDrivers at hout
  rw [hpre] at hout
  exact (Option.some_inj.mp hout).symm

/-- Transitivity of the driver comparator. -/
theorem driverLE_trans (a b c : CostDriver) (hab : driverLE a b = true)
    (hbc : driverLE b c = true) : driverLE a c = true := by
  simp only [driverLE, decide_eq_true_eq] at *
  omega

/-- Totality of the driver comparator. -/
theorem driverLE_total (a b : CostDriver) : (driverLE a b || driverLE b a) = true := by
  simp only [driverLE, Bool.or_eq_true, decide_eq_true_eq]
  omega

/-- C5: every emitted cost driver has severity high/medium/low and comes
from a signal of the input list with that id and severity (so an `unknown`
severity never yields a driver), and every emitted PM action is either the
baseline fallback or comes from a signal with severity high or medium (so
an `unknown` severity never yields an action). -/
theorem drivers_and_actions_respect_severity (signals : List Signal) (cfg : Config)
    (out : List CostDriver) (h : buildCostDrivers signals cfg = some out) :
    (∀ d ∈ out,
      (d.severity = .high ∨ d.severity = .medium ∨ d.severity = .low) ∧
      ∃ s, s ∈ signals ∧ s.id = d.signalId ∧ s.severity = d.severity) ∧
    (∀ a ∈ buildPMActions signals cfg,
      a.relatedSignalId = "baseline" ∨
      ∃ s, s ∈ signals ∧ s.id = a.relatedSignalId ∧
        (s.severity = .high ∨ s.severity = .medium)) := by
  constructor
  · intro d hd
    unfold buildCostDrivers buildCostDriversRaw at h
    cases hres : resolveRules signals cfg.costRules with
    | none => rw [hres] at h; exact absurd h (by simp)
    | some ods =>
      rw [hres] at h
      simp only [Option.map_some', Option.some_inj] at h
      have hmem_pre : d ∈ ods.filterMap id := by
        have hperm := List.mergeSort_perm (ods.filterMap id) driverLE
        rw [← h] at hd
        exact (hperm.mem_iff).mp hd
      obtain ⟨od, hodmem, hodeq⟩ := List.mem_filterMap.mp hmem_pre
      have hod : od = some d := hodeq
      obtain ⟨rule, hrmem, hres'⟩ := resolveRules_mem signals cfg.costRules ods hres od hodmem
      rw [hod] at hres'
      obtain ⟨_, hsev, hex⟩ := resolveRule_spec signals rule d hres'
      exact ⟨hsev, hex⟩
  · intro a ha
    unfold buildPMActions at ha
    have ha' := (List.mergeSort_perm _ actionLE).mem_iff.mp ha
    by_cases hemp : (signals.filterMap (actionFromSignal cfg)).isEmpty
    · rw [if_pos hemp] at ha'
      left
      have : a = baselineAction := by
        rcases List.mem_cons.mp ha' with h' | h'
        · exact h'
        · exact absurd h' (List.not_mem_nil a)
      rw [this]
      rfl
    · rw [if_neg hemp] at ha'
      right
      obtain ⟨s, hsmem, hseq⟩ := List.mem_filterMap.mp ha'
      by_cases hskip : s.severity = .unknown ∨ s.severity = .low
      · simp only [actionFromSignal, if_pos hskip] at hseq
        exact Option.noConfusion hseq
      · cases ht : cfg.actionLibrary s.id with
        | none =>
          simp only [actionFromSignal, if_neg hskip, ht] at hseq
          exact Option.noConfusion hseq
        | some template =>
          simp only [actionFromSignal, if_neg hskip, ht, Option.some_inj] at hseq
          have hrel : a.relatedSignalId = s.id := by
            rw [← hseq]
          refine ⟨s, hsmem, hrel.symm, ?_⟩
          push_neg at hskip
          cases hsv : s.severity with
          | high => exact Or.inl rfl
          | medium => exact Or.inr rfl
          | low => exact absurd hsv hskip.2
          | unknown => exact absurd hsv hskip.1

/-- Witness for `drivers_and_actions_respect_severity` on a concrete
configuration. -/
theorem drivers_and_actions_witness :
    buildCostDrivers [floodSignal] demoConfig = some [floodDriver] ∧
    (floodDriver.severity = .high ∨ floodDriver.severity = .medium ∨
      floodDriver.severity = .low) :=
  have hraw : buildCostDriversRaw [floodSignal] demoConfig = some [floodDriver] := by decide
  have h : buildCostDrivers [floodSignal] demoConfig = some [floodDriver] := by
    unfold buildCostDrivers
    rw [hraw, Option.map_some', List.mergeSort_singleton]
  ⟨h, ((drivers_and_actions_respect_severity [floodSignal] demoConfig [floodDriver] h).1
    floodDriver (List.mem_singleton.mpr rfl)).1⟩

/-- Helper: a rank-filtered driver list is pairwise under the comparator. -/
theorem pairwise_filter_rank (l : List CostDriver) (r : ℕ) :
    List.Pairwise (fun a b => driverLE a b = true)
      (l.filter (fun d => rankSeverity d.severity == r)) := by
  apply List.pairwise_of_forall_mem_list
  intro a hamem b hbmem
  have har := List.of_mem_filter hamem
  have hbr := List.of_mem_filter hbmem
  simp only [beq_iff_eq] at har hbr
  simp only [driverLE, decide_eq_true_eq, har, hbr]
  exact le_refl r

/-- C6: the emitted cost-driver list is sorted in descending order of
severity rank; drivers of equal rank appear exactly in the order of the
pre-sort list (stable sort), whose signal-id sequence follows the rule
table's order. -/
theorem costDrivers_sorted_stable (signals : List Signal) (cfg : Config)
    (pre out : List CostDriver)
    (hpre : buildCostDriversRaw signals cfg = some pre)
    (hout : buildCostDrivers signals cfg = some out) :
    List.Pairwise (fun a b => rankSeverity b.severity ≤ rankSeverity a.severity) out ∧
    (∀ r : ℕ, out.filter (fun d => rankSeverity d.severity == r)
      = pre.filter (fun d => rankSeverity d.severity == r)) ∧
    (pre.map (·.signalId)).Sublist (cfg.costRules.map (·.signalId)) := by
  have hsorteq := buildCostDrivers_eq signals cfg pre out hpre hout
  refine ⟨?_, ?_, ?_⟩
  · rw [hsorteq]
    have hs := List.sorted_mergeSort driverLE_trans driverLE_total pre
    exact hs.imp (fun h => by simpa [driverLE, decide_eq_true_eq] using h)
  · intro r
    set p : CostDriver → Bool := fun d => rankSeverity d.severity == r with hp
    have hfp : List.Pairwise (fun a b => driverLE a b = true) (pre.filter p) :=
      pairwise_filter_rank pre r
    have hsub : (pre.filter p).Sublist out := by
      rw [hsorteq]
      exact List.sublist_mergeSort driverLE_trans driverLE_total hfp (List.filter_sublist pre)
    have hperm : (out.filter p).Perm (pre.filter p) := by
      rw [hsorteq]
      exact (List.mergeSort_perm pre driverLE).filter p
    have hself : (pre.filter p).filter p = pre.filter p := by
      rw [List.filter_eq_self]
      intro a hmem
      exact List.of_mem_filter hmem
    have hsub2 : (pre.filter p).Sublist (out.filter p) := by
      rw [← hself]
      exact List.Sublist.filter p hsub
    have hlen : (pre.filter p).length = (out.filter p).length := hperm.length_eq.symm
    exact (hsub2.eq_of_length hlen).symm
  · unfold buildCostDriversRaw at hpre
    cases hres : resolveRules signals cfg.costRules with
    | none => rw [hres] at hpre; exact absurd hpre (by simp)
    | some ods =>
      rw [hres] at hpre
      have : ods.filterMap id = pre := Option.some_inj.mp hpre
      rw [← this]
      exact resolveRules_ids signals cfg.costRules ods hres

/-- Witness for `costDrivers_sorted_stable` on a two-rule configuration. -/
theorem costDrivers_sorted_stable_witness :
    buildCostDriversRaw [floodSignal, slopeSignal] demoConfigTwoRules
      = some [floodDriver, slopeDriver] ∧
    buildCostDrivers [floodSignal, slopeSignal] demoConfigTwoRules
      = some [floodDriver, slopeDriver] ∧
    List.Pairwise (fun a b => rankSeverity b.severity ≤ rankSeverity a.severity)
      [floodDriver, slopeDriver] :=
  have hpre : buildCostDriversRaw [floodSignal, slopeSignal] demoConfigTwoRules
      = some [floodDriver, slopeDriver] := by decide
  have hout : buildCostDrivers [floodSignal, slopeSignal] demoConfigTwoRules
      = some [floodDriver, slopeDriver] := by
    unfold buildCostDrivers
    rw [hpre, Option.map_some', List.mergeSort_of_sorted (by decide)]
  ⟨hpre, hout, (costDrivers_sorted_stable [floodSignal, slopeSignal] demoConfigTwoRules
    [floodDriver, slopeDriver] [floodDriver, slopeDriver] hpre hout).1⟩

/-- C4 counterexample: a configuration whose rule is missing the `high`
severity key, and a configuration with an empty contingency ladder, are not
rejected before resolution — they reach the resolvers and fault there
(`none` models the JavaScript `TypeError` thrown during the request). -/
theorem config_error_not_rejected_at_load :
    (configMissingMedium.costRules.map (fun r => r.deltas .medium)) = [none] ∧
    buildCostDrivers [windSignal] configMissingMedium = none ∧
    buildContingency [windSignal] noBandsConfig = none := by
  refine ⟨rfl, by decide, ?_⟩
  simp only [buildContingency, noBandsConfig, List.mergeSort_nil]
  rfl

/-- C4 (amended): there is no config-load validation (the configuration is
loaded by an unchecked type cast); a rule whose `deltas` map is missing the
severity matched by a signal makes `buildCostDrivers` fault on that request,
and an empty contingency ladder makes `buildContingency` fault. -/
theorem config_faults_surface_per_request (cfg : Config) (signals : List Signal)
    (s : Signal) (sev : Severity) (rule : RuleConfig) (rest : List RuleConfig) :
    (cfg.costRules = rule :: rest →
      lookupSignal signals rule.signalId = some s →
      asSeverity s.severity = some sev →
      rule.deltas sev = none →
      buildCostDrivers signals cfg = none) ∧
    (cfg.contingencyBands = [] → buildContingency signals cfg = none) := by
  constructor
  · intro hr hl hs hd
    simp only [buildCostDrivers, buildCostDriversRaw, hr, resolveRules, resolveRule,
      hl, hs, hd, Option.map_none']
  · intro hb
    simp only [buildContingency, hb, List.mergeSort_nil]
    rfl

/-- Witness for `config_faults_surface_per_request` on the misconfigured
rule and the empty ladder. -/
theorem config_faults_witness :
    buildCostDrivers [windSignal] configMissingMedium = none ∧
    buildContingency [floodSignal] noBandsConfig = none :=
  ⟨(config_faults_surface_per_request configMissingMedium [windSignal] windSignal
      .medium ruleMissingMedium []).1 rfl (by decide) rfl rfl,
    (config_faults_surface_per_request noBandsConfig [floodSignal] floodSignal
      .high ruleMissingMedium []).2 rfl⟩

/-- C2 counterexample: the seed key "+!=yG" has FNV-1a hash 0, so `createRng`
replaces the seed by 1 (`seed || 1`) and the first uniform value is not
`((1664525*hash(s) + 1013904223) mod 2^32) / 2^32`. -/
theorem rng_seed_zero_counterexample :
    hashSeed "+!=yG" = 0 ∧
    firstUniform "+!=yG" ≠
      (((1664525 * hashSeed "+!=yG" + 1013904223) % 4294967296 : ℕ) : ℝ) / 4294967296 := by
  have h0 : hashSeed "+!=yG" = 0 := by decide
  refine ⟨h0, ?_⟩
  have h1 : firstUniform "+!=yG" = (1015568748 : ℝ) / 4294967296 := by
    simp only [firstUniform, uniformAt, rngStateAfter, initState, rngStep, h0, if_pos rfl]
    norm_num
  rw [h1, h0]
  norm_num

/-- C2 (amended): the hash folds each character by XOR-then-multiply mod
2^32; the generator state obeys `state = (1664525*state + 1013904223) mod
2^32` and emits values in [0,1); the first uniform value for seed key `s`
equals `((1664525*hash(s) + 1013904223) mod 2^32) / 2^32` whenever
`hash(s) ≠ 0` (a zero hash is replaced by seed 1 by `seed || 1`). -/
theorem rng_stream_spec (key : String) (c : Char) (k : ℕ) :
    hashSeed (key.push c) = ((hashSeed key ^^^ c.toNat) * 16777619) % 4294967296 ∧
    rngStateAfter key (k + 1) = (1664525 * rngStateAfter key k + 1013904223) % 4294967296 ∧
    0 ≤ uniformAt key k ∧ uniformAt key k < 1 ∧
    (hashSeed key ≠ 0 →
      firstUniform key =
        (((1664525 * hashSeed key + 1013904223) % 4294967296 : ℕ) : ℝ) / 4294967296) := by
  refine ⟨?_, rfl, ?_, ?_, ?_⟩
  · simp [hashSeed, String.push]
  · exact div_nonneg (Nat.cast_nonneg _) (by norm_num)
  · have hlt : rngStateAfter key (k + 1) < 4294967296 := by
      show rngStep _ < 4294967296
      exact Nat.mod_lt _ (by norm_num)
    rw [uniformAt, div_lt_one (by norm_num)]
    exact_mod_cast hlt
  · intro h
    simp only [firstUniform, uniformAt, rngStateAfter, initState, if_neg h, rngStep]

/-- Witness for `rng_stream_spec` at a seed key with nonzero hash. -/
theorem rng_stream_spec_witness :
    hashSeed "a" ≠ 0 ∧
    firstUniform "a" =
      (((1664525 * hashSeed "a" + 1013904223) % 4294967296 : ℕ) : ℝ) / 4294967296 :=
  ⟨by decide, (rng_stream_spec "a" 'x' 0).2.2.2.2 (by decide)⟩

/-- C9: for a non-empty signal list the confidence result satisfies
`completenessPct = round(100*countKnown/totalSignals)` (known = value not
"Not available"/"Unknown"), `confidenceScore = max(35, round(100 -
min(6*warningCount, 30) - max(0, 100-completenessPct)*0.4))`, the score is
in [35,100], and zero warnings with 100% completeness give exactly 100. -/
theorem scoreConfidence_formula (signals : List Signal) (warnings : List String)
    (h : signals ≠ []) :
    let k : ℕ := (signals.filter (fun s => s.value != "Not available" && s.value != "Unknown")).length
    let c : ℤ := round ((100 * (k : ℚ)) / (signals.length : ℚ))
    (scoreConfidence signals warnings).2 = c ∧
    (scoreConfidence signals warnings).1 =
      max 35 (round ((100 : ℚ) - min (6 * (warnings.length : ℚ)) 30
        - (max 0 (100 - (c : ℚ))) * 0.4)) ∧
    35 ≤ (scoreConfidence signals warnings).1 ∧
    (scoreConfidence signals warnings).1 ≤ 100 ∧
    (warnings = [] → c = 100 → (scoreConfidence signals warnings).1 = 100) := by
  intro k c
  have hlen : signals.length ≠ 0 := fun hl => h (List.length_eq_zero.mp hl)
  have htot : (if signals.length = 0 then 1 else signals.length) = signals.length :=
    if_neg hlen
  have hcomp : (scoreConfidence signals warnings).2 = c := by
    simp only [scoreConfidence, htot]
    congr 1
    ring
  have hscore : (scoreConfidence signals warnings).1 =
      max 35 (round ((100 : ℚ) - min (6 * (warnings.length : ℚ)) 30
        - (max 0 (100 - (c : ℚ))) * 0.4)) := by
    simp only [scoreConfidence, htot]
    have hc' : round (((k : ℚ) / (signals.length : ℚ)) * 100) = c := by
      congr 1
      ring
    rw [hc']
    congr 2
    rw [mul_comm]
  have hwp : (0 : ℚ) ≤ min (6 * (warnings.length : ℚ)) 30 :=
    le_min (by positivity) (by norm_num)
  have hap : (0 : ℚ) ≤ (max 0 (100 - (c : ℚ))) * 0.4 :=
    mul_nonneg (le_max_left _ _) (by norm_num)
  refine ⟨hcomp, hscore, ?_, ?_, ?_⟩
  · rw [hscore]
    exact le_max_left _ _
  · rw [hscore]
    refine max_le (by norm_num) ?_
    have : round ((100 : ℚ) - min (6 * (warnings.length : ℚ)) 30
        - (max 0 (100 - (c : ℚ))) * 0.4) ≤ round (100 : ℚ) :=
      round_monotone (by linarith)
    simpa using this
  · intro hw hc
    rw [hscore, hw, hc]
    norm_num

/-- Witness for `scoreConfidence_formula` on a concrete non-empty list. -/
theorem scoreConfidence_formula_witness :
    [floodSignal] ≠ ([] : List Signal) ∧ 35 ≤ (scoreConfidence [floodSignal] []).1 :=
  ⟨by decide, (scoreConfidence_formula [floodSignal] [] (by decide)).2.2.1⟩

/-- C10: for an empty signal list `scoreConfidence` is total (the
denominator is replaced by 1), returns `dataCompletenessPct = 0` for every
warning list, and with an empty warning list returns `confidenceScore = 60`. -/
theorem scoreConfidence_empty_signals (warnings : List String) :
    (scoreConfidence [] warnings).2 = 0 ∧ (scoreConfidence [] []).1 = 60 := by
  constructor
  · simp [scoreConfidence]
  · norm_num [scoreConfidence, round_eq]

/-- C7: the triangular sampler returns `min` directly (no division) when
`max <= min`, and for `min < max` with midpoint mode every inverted sample
at a uniform value in [0,1) stays inside the closed interval [min, max]. -/
theorem triangularSample_bounds :
    (∀ (mn mx mode : ℝ) (state : ℕ), mx ≤ mn → triangularSample mn mx mode state = (mn, state)) ∧
    (∀ (mn mx u : ℝ), mn < mx → 0 ≤ u → u < 1 →
      mn ≤ triangularFromU mn mx ((mn + mx) / 2) u ∧
      triangularFromU mn mx ((mn + mx) / 2) u ≤ mx) := by
  constructor
  · intro mn mx mode state h
    unfold triangularSample
    rw [if_pos h]
  · intro mn mx u hlt hu0 hu1
    have hd : (0 : ℝ) < mx - mn := sub_pos.mpr hlt
    unfold triangularFromU
    by_cases hsplit : u < ((mn + mx) / 2 - mn) / (mx - mn)
    · rw [if_pos hsplit]
      have harg : u * (mx - mn) * ((mn + mx) / 2 - mn) ≤ (mx - mn) ^ 2 := by
        nlinarith [sq_nonneg (mx - mn)]
      have hsq : Real.sqrt (u * (mx - mn) * ((mn + mx) / 2 - mn)) ≤ mx - mn := by
        calc Real.sqrt (u * (mx - mn) * ((mn + mx) / 2 - mn))
            ≤ Real.sqrt ((mx - mn) ^ 2) := Real.sqrt_le_sqrt harg
          _ = mx - mn := Real.sqrt_sq (le_of_lt hd)
      constructor
      · have := Real.sqrt_nonneg (u * (mx - mn) * ((mn + mx) / 2 - mn))
        linarith
      · linarith
    · rw [if_neg hsplit]
      have harg : (1 - u) * (mx - mn) * (mx - (mn + mx) / 2) ≤ (mx - mn) ^ 2 := by
        nlinarith [sq_nonneg (mx - mn)]
      have hsq : Real.sqrt ((1 - u) * (mx - mn) * (mx - (mn + mx) / 2)) ≤ mx - mn := by
        calc Real.sqrt ((1 - u) * (mx - mn) * (mx - (mn + mx) / 2))
            ≤ Real.sqrt ((mx - mn) ^ 2) := Real.sqrt_le_sqrt harg
          _ = mx - mn := Real.sqrt_sq (le_of_lt hd)
      constructor
      · linarith
      · have := Real.sqrt_nonneg ((1 - u) * (mx - mn) * (mx - (mn + mx) / 2))
        linarith

/-- Witness for `triangularSample_bounds` at concrete inputs. -/
theorem triangularSample_bounds_witness :
    triangularSample 5 3 4 7 = (5, 7) ∧
    ((0 : ℝ) ≤ triangularFromU 0 1 ((0 + 1) / 2) 0 ∧
      triangularFromU 0 1 ((0 + 1) / 2) 0 ≤ 1) :=
  ⟨triangularSample_bounds.1 5 3 4 7 (by norm_num),
    triangularSample_bounds.2 0 1 0 (by norm_num) (le_refl 0) (by norm_num)⟩

/-- C1: `buildProbabilisticEstimate` is a pure function of
`(costDrivers, baselineCostUsd, seedKey, sampleSize)`: two invocations on
identical inputs return identical `impactPct`, `scheduleDays` and
`impactCostUsd` triples (all randomness is derived from the seed key; the
generator state is threaded explicitly and no ambient state exists). -/
theorem buildProbabilisticEstimate_deterministic
    (cd₁ cd₂ : List CostDriver) (b₁ b₂ : Option ℚ) (k₁ k₂ : String)
    (n₁ n₂ : Option ℕ)
    (hcd : cd₁ = cd₂) (hb : b₁ = b₂) (hk : k₁ = k₂) (hn : n₁ = n₂) :
    (buildProbabilisticEstimate cd₁ b₁ k₁ n₁).impactPct
      = (buildProbabilisticEstimate cd₂ b₂ k₂ n₂).impactPct ∧
    (buildProbabilisticEstimate cd₁ b₁ k₁ n₁).scheduleDays
      = (buildProbabilisticEstimate cd₂ b₂ k₂ n₂).scheduleDays ∧
    (buildProbabilisticEstimate cd₁ b₁ k₁ n₁).impactCostUsd
      = (buildProbabilisticEstimate cd₂ b₂ k₂ n₂).impactCostUsd := by
  subst hcd hb hk hn
  exact ⟨rfl, rfl, rfl⟩

/-- Witness for `buildProbabilisticEstimate_deterministic`. -/
theorem buildProbabilisticEstimate_deterministic_witness :
    (buildProbabilisticEstimate [floodDriver] (some 100) "300 E Lincoln Way" (some 4)).impactPct
      = (buildProbabilisticEstimate [floodDriver] (some 100) "300 E Lincoln Way" (some 4)).impactPct :=
  (buildProbabilisticEstimate_deterministic [floodDriver] [floodDriver] (some 100) (some 100)
    "300 E Lincoln Way" "300 E Lincoln Way" (some 4) (some 4) rfl rfl rfl rfl).1

/-- Each trial over an empty driver list contributes zero to both totals. -/
theorem runTrial_nil (state : ℕ) : runTrial [] state = (0, 0, state) :=
  rfl

/-- Over an empty driver list every trial total is zero. -/
theorem runTrials_nil (n state : ℕ) :
    runTrials [] n state = (List.replicate n 0, List.replicate n 0, state) := by
  induction n generalizing state with
  | zero => rfl
  | succ n ih =>
    simp only [runTrials, runTrial_nil, ih, List.replicate_succ]

/-- Sorting a constant-zero list leaves it unchanged. -/
theorem mergeSort_replicate_zero (n : ℕ) :
    (List.replicate n (0 : ℝ)).mergeSort realLE = List.replicate n 0 :=
  List.mergeSort_of_sorted (List.pairwise_replicate.mpr (Or.inr (by simp [realLE])))

/-- Indexing a constant-zero list with default 0 always yields 0. -/
theorem getD_replicate_zero (n i : ℕ) :
    (List.replicate n (0 : ℝ)).getD i 0 = 0 := by
  rcases lt_or_ge i n with h | h
  · rw [List.getD_eq_getElem _ _ (by simpa using h)]
    simp
  · rw [List.getD_eq_default _ _ (by simpa using h)]

/-- Every percentile of a constant-zero list is 0. -/
theorem percentile_replicate_zero (n : ℕ) (p : ℝ) :
    percentile (List.replicate n 0) p = 0 := by
  unfold percentile
  by_cases h0 : (List.replicate n (0 : ℝ)).length = 0
  · rw [if_pos h0]
  · rw [if_neg h0]
    exact getD_replicate_zero n _

/-- Rounding zero to two decimals gives zero. -/
theorem round2_zero : round2 0 = 0 := by
  simp [round2]

/-- Helper: the estimate over an empty driver list has all-zero percentile
triples. -/
theorem estimate_empty_aux (b : Option ℚ) (key : String) (n? : Option ℕ) :
    (buildProbabilisticEstimate [] b key n?).impactPct = ⟨0, 0, 0⟩ ∧
    (buildProbabilisticEstimate [] b key n?).scheduleDays = ⟨0, 0, 0⟩ := by
  constructor <;>
    simp [buildProbabilisticEstimate, runTrials_nil, mergeSort_replicate_zero,
      percentile_replicate_zero, toTriple, round2_zero]

/-- C8: for an empty cost-driver list `buildProbabilisticEstimate` returns
all-zero `impactPct` and `scheduleDays` triples for every baseline, seed
key and sample size, without any failure. -/
theorem estimate_empty_drivers (b : Option ℚ) (key : String) (n? : Option ℕ) :
    (buildProbabilisticEstimate [] b key n?).impactPct = ⟨0, 0, 0⟩ ∧
    (buildProbabilisticEstimate [] b key n?).scheduleDays = ⟨0, 0, 0⟩ :=
  estimate_empty_aux b key n?

/-- The merge sort of the trial totals is sorted ascending. -/
theorem sorted_mergeSort_real (l : List ℝ) :
    List.Pairwise (fun a b : ℝ => a ≤ b) (l.mergeSort realLE) := by
  have htrans : ∀ a b c : ℝ, realLE a b = true → realLE b c = true → realLE a c = true := by
    intro a b c hab hbc
    simp only [realLE, decide_eq_true_eq] at *
    exact le_trans hab hbc
  have htotal : ∀ a b : ℝ, (realLE a b || realLE b a) = true := by
    intro a b
    simp only [realLE, Bool.or_eq_true, decide_eq_true_eq]
    exact le_total a b
  exact (List.sorted_mergeSort htrans htotal l).imp
    (fun h => by simpa only [realLE, decide_eq_true_eq] using h)

/-- Indexing an ascending-sorted list is monotone in the index. -/
theorem getD_mono_of_sorted (l : List ℝ)
    (hl : List.Pairwise (fun a b : ℝ => a ≤ b) l)
    {i j : ℕ} (hij : i ≤ j) (hj : j < l.length) : l.getD i 0 ≤ l.getD j 0 := by
  have hi : i < l.length := lt_of_le_of_lt hij hj
  rw [List.getD_eq_getElem l 0 hi, List.getD_eq_getElem l 0 hj]
  rcases eq_or_lt_of_le hij with heq | hlt
  · subst heq
    exact le_refl _
  · exact List.pairwise_iff_getElem.mp hl i j hi hj hlt

/-- Nearest-rank percentile extraction is monotone in the requested
percentile on an ascending-sorted list. -/
theorem percentile_mono (l : List ℝ)
    (hl : List.Pairwise (fun a b : ℝ => a ≤ b) l)
    {p q : ℝ} (hpq : p ≤ q) : percentile l p ≤ percentile l q := by
  unfold percentile
  by_cases h0 : l.length = 0
  · simp only [if_pos h0]
    exact le_refl 0
  · simp only [if_neg h0]
    apply getD_mono_of_sorted l hl
    · apply min_le_min (le_refl _)
      apply Int.toNat_le_toNat
      apply max_le_max (le_refl (0 : ℤ))
      apply Int.floor_mono
      apply mul_le_mul_of_nonneg_right _ (Nat.cast_nonneg _)
      exact (div_le_div_iff_of_pos_right (by norm_num)).mpr hpq
    · exact lt_of_le_of_lt (Nat.min_le_left _ _) (by omega)

/-- Rounding to two decimals is monotone. -/
theorem round2_mono {x y : ℝ} (h : x ≤ y) : round2 x ≤ round2 y := by
  unfold round2
  have hr : round (x * 100) ≤ round (y * 100) :=
    round_monotone (mul_le_mul_of_nonneg_right h (by norm_num))
  apply (div_le_div_iff_of_pos_right (by norm_num : (0 : ℝ) < 100)).mpr
  exact_mod_cast hr

/-- Shape of the optional dollar conversion: present exactly for a positive
baseline, scaling each percentile of the cost-percent triple. -/
theorem impactCostUsd_cases (cd : List CostDriver) (q : ℚ) (key : String)
    (n? : Option ℕ) :
    (buildProbabilisticEstimate cd (some q) key n?).impactCostUsd =
      if 0 < q then
        some { p10 := round2
                 (((buildProbabilisticEstimate cd (some q) key n?).impactPct.p10 / 100) * (q : ℝ))
               p50 := round2
                 (((buildProbabilisticEstimate cd (some q) key n?).impactPct.p50 / 100) * (q : ℝ))
               p90 := round2
                 (((buildProbabilisticEstimate cd (some q) key n?).impactPct.p90 / 100) * (q : ℝ)) }
      else none :=
  rfl

/-- C3: every estimate's `impactPct` and `scheduleDays` triples satisfy
`p10 ≤ p50 ≤ p90`, and so does `impactCostUsd` whenever it is present. -/
theorem estimate_percentiles_monotone (cd : List CostDriver) (b : Option ℚ)
    (key : String) (n? : Option ℕ) :
    ((buildProbabilisticEstimate cd b key n?).impactPct.p10
       ≤ (buildProbabilisticEstimate cd b key n?).impactPct.p50 ∧
     (buildProbabilisticEstimate cd b key n?).impactPct.p50
       ≤ (buildProbabilisticEstimate cd b key n?).impactPct.p90) ∧
    ((buildProbabilisticEstimate cd b key n?).scheduleDays.p10
       ≤ (buildProbabilisticEstimate cd b key n?).scheduleDays.p50 ∧
     (buildProbabilisticEstimate cd b key n?).scheduleDays.p50
       ≤ (buildProbabilisticEstimate cd b key n?).scheduleDays.p90) ∧
    (∀ t, (buildProbabilisticEstimate cd b key n?).impactCostUsd = some t →
      t.p10 ≤ t.p50 ∧ t.p50 ≤ t.p90) := by
  have hps := sorted_mergeSort_real
    (runTrials cd (n?.getD 2000) (initState (hashSeed key))).1
  have hds := sorted_mergeSort_real
    (runTrials cd (n?.getD 2000) (initState (hashSeed key))).2.1
  have h110 : (buildProbabilisticEstimate cd b key n?).impactPct.p10
      ≤ (buildProbabilisticEstimate cd b key n?).impactPct.p50 :=
    round2_mono (percentile_mono _ hps (show (10 : ℝ) ≤ 50 by norm_num))
  have h150 : (buildProbabilisticEstimate cd b key n?).impactPct.p50
      ≤ (buildProbabilisticEstimate cd b key n?).impactPct.p90 :=
    round2_mono (percentile_mono _ hps (show (50 : ℝ) ≤ 90 by norm_num))
  have h210 : (buildProbabilisticEstimate cd b key n?).scheduleDays.p10
      ≤ (buildProbabilisticEstimate cd b key n?).scheduleDays.p50 :=
    round2_mono (percentile_mono _ hds (show (10 : ℝ) ≤ 50 by norm_num))
  have h250 : (buildProbabilisticEstimate cd b key n?).scheduleDays.p50
      ≤ (buildProbabilisticEstimate cd b key n?).scheduleDays.p90 :=
    round2_mono (percentile_mono _ hds (show (50 : ℝ) ≤ 90 by norm_num))
  refine ⟨⟨h110, h150⟩, ⟨h210, h250⟩, ?_⟩
  intro t ht
  cases b with
  | none => exact Option.noConfusion ht
  | some q =>
    rw [impactCostUsd_cases] at ht
    by_cases hq : 0 < q
    · rw [if_pos hq] at ht
      have hqr : (0 : ℝ) ≤ (q : ℝ) := by exact_mod_cast hq.le
      have hmono : ∀ x y : ℝ, x ≤ y →
          round2 ((x / 100) * (q : ℝ)) ≤ round2 ((y / 100) * (q : ℝ)) := by
        intro x y hxy
        exact round2_mono
          (mul_le_mul_of_nonneg_right ((div_le_div_iff_of_pos_right (by norm_num)).mpr hxy) hqr)
      rw [← Option.some_inj.mp ht]
      exact ⟨hmono _ _ h110, hmono _ _ h150⟩
    · rw [if_neg hq] at ht
      exact Option.noConfusion ht

/-- Witness for `estimate_percentiles_monotone` with a present dollar
triple. -/
theorem estimate_percentiles_monotone_witness :
    (buildProbabilisticEstimate [] (some 100) "a" (some 1)).impactCostUsd
      = some ⟨0, 0, 0⟩ ∧
    ((⟨0, 0, 0⟩ : PercentileTriple).p10 ≤ (⟨0, 0, 0⟩ : PercentileTriple).p50 ∧
     (⟨0, 0, 0⟩ : PercentileTriple).p50 ≤ (⟨0, 0, 0⟩ : PercentileTriple).p90) :=
  have himp : (buildProbabilisticEstimate [] (some 100) "a" (some 1)).impactPct
      = ⟨0, 0, 0⟩ := (estimate_empty_aux (some 100) "a" (some 1)).1
  have hic : (buildProbabilisticEstimate [] (some 100) "a" (some 1)).impactCostUsd
      = some ⟨0, 0, 0⟩ := by
    rw [impactCostUsd_cases, if_pos (by norm_num : (0 : ℚ) < 100), himp]
    norm_num [round2]
  ⟨hic, (estimate_percentiles_monotone [] (some 100) "a" (some 1)).2.2 ⟨0, 0, 0⟩ hic⟩

end SiteIntel
